import Mathlib

/-!
Verification of the SSHBot core against its specification.

The Python source (src/ssh-bot.py) is shallowly embedded below:
Python strings are modelled as `List Char` (one entry per code point),
dictionaries as association lists with Python-dict update semantics,
stateful handlers as explicit state-passing functions, and external
side effects (Telegram message operations, SSH connection attempts)
as an explicit trace of `Eff` values.  Fallible externals (the SSH
connect, the Telegram edit) are driven by explicit Boolean oracles.
Python `str.strip`/`str.lower`/`str.upper`/`str.splitlines` are
modelled on their ASCII fragment, which covers every character the
program and the claims manipulate.
-/

/-- Python strings, one `Char` per code point. -/
abbrev PyStr := List Char

/-- ASCII fragment of Python's `str.isspace` / the default `strip` set. -/
def isPySpaceChar (c : Char) : Bool :=
  c == ' ' || c == '\t' || c == '\n' || c == '\r' || c == '\x0b' || c == '\x0c'

/-- Python `s.lstrip()` (ASCII whitespace fragment). -/
def pyLStrip (s : PyStr) : PyStr := s.dropWhile isPySpaceChar

/-- Python `s.rstrip()` (ASCII whitespace fragment). -/
def pyRStrip (s : PyStr) : PyStr := (s.reverse.dropWhile isPySpaceChar).reverse

/-- Python `s.strip()` (ASCII whitespace fragment). -/
def pyStrip (s : PyStr) : PyStr := pyRStrip (pyLStrip s)

/-- ASCII fragment of Python's `str.lower` on one character. -/
def pyLowerChar (c : Char) : Char :=
  if 65 ≤ c.toNat ∧ c.toNat ≤ 90 then Char.ofNat (c.toNat + 32) else c

/-- ASCII fragment of Python's `str.upper` on one character. -/
def pyUpperChar (c : Char) : Char :=
  if 97 ≤ c.toNat ∧ c.toNat ≤ 122 then Char.ofNat (c.toNat - 32) else c

/-- Line-boundary characters of Python's `str.splitlines`. -/
def isLineBreakChar (c : Char) : Bool :=
  c == '\n' || c == '\r' || c == '\x0b' || c == '\x0c' || c == '\x1c' ||
  c == '\x1d' || c == '\x1e' || c == '\x85' || c == '\u2028' || c == '\u2029'

/-- Python `text.splitlines()`: boundaries are dropped, `\r\n` counts as a
single boundary, and a trailing boundary produces no empty final line. -/
def splitLinesList : List Char → List (List Char)
  | [] => []
  | '\r' :: '\n' :: cs => [] :: splitLinesList cs
  | c :: cs =>
    if isLineBreakChar c then
      [] :: splitLinesList cs
    else
      match splitLinesList cs with
      | [] => [[c]]
      | l :: ls => (c :: l) :: ls

/-- Python `"\n".join(lines)`. -/
def joinLines : List PyStr → PyStr
  | [] => []
  | [l] => l
  | l :: ls => l ++ '\n' :: joinLines ls

/-- `MAX_TG_CHARS` with its default value (src/ssh-bot.py:40). -/
def MAX_TG_CHARS : Nat := 3900

/-- The loop of `clamp_tg` (src/ssh-bot.py:163-172): walk the lines bottom-up,
prepending each to `out`; as soon as the running join exceeds the budget,
drop the line just added and stop. -/
def clampLoop (budget : Nat) : List PyStr → List PyStr → List PyStr
  | [], out => out
  | line :: rest, out =>
    if budget < (joinLines (line :: out)).length then out
    else clampLoop budget rest (line :: out)

/-- `clamp_tg` generalised over the character budget. -/
def clampTgWith (budget : Nat) (text : PyStr) : PyStr :=
  joinLines (clampLoop budget (splitLinesList text).reverse [])

/-- `clamp_tg` (src/ssh-bot.py:163-172). -/
def clamp_tg (text : PyStr) : PyStr := clampTgWith MAX_TG_CHARS text

/-- ASCII decimal digit (the `\d` of `SSH_RE` on the inputs in scope). -/
def isAsciiDigit (c : Char) : Bool := decide (48 ≤ c.toNat ∧ c.toNat ≤ 57)

/-- Numeric value of a decimal digit string (Python `int(...)`). -/
def digitsToNat (ds : List Char) : Nat :=
  ds.foldl (fun acc c => 10 * acc + (c.toNat - 48)) 0

/-- `parse_target` (src/ssh-bot.py:283-289): strip, then match the anchored
regex `([^@]+)@([^:]+)(?::(\d+))?$`.  `[^@]+` necessarily stops at the first
`@` and `[^:]+` at the first `:` after it, so the regex match is rendered as
the equivalent deterministic split; the port defaults to 22. -/
def parse_target (text : PyStr) : Option (PyStr × PyStr × Nat) :=
  let t := pyStrip text
  let user := t.takeWhile (fun c => c != '@')
  match t.dropWhile (fun c => c != '@') with
  | [] => none
  | _ :: rest =>
    if user.isEmpty then none
    else
      let host := rest.takeWhile (fun c => c != ':')
      if host.isEmpty then none
      else
        match rest.dropWhile (fun c => c != ':') with
        | [] => some (user, host, 22)
        | _ :: ds =>
          if ds.isEmpty then none
          else if ds.all isAsciiDigit then some (user, host, digitsToNat ds)
          else none

/-- `validate_server_name` (src/ssh-bot.py:273-281): `none` means accepted,
`some msg` is the reported rejection reason. -/
def validate_server_name (name : PyStr) : Option PyStr :=
  let n := pyStrip name
  if n = [] then some "Server name cannot be empty.".toList
  else if 32 < n.length then some "Server name is too long (max 32).".toList
  else if n.any (fun c => c ∈ [':', '|', '\n', '\r']) then
    some "Server name contains invalid characters.".toList
  else none

/-- The `KEYS` table of named keys (src/ssh-bot.py:95-107). -/
def KEYS : List (PyStr × PyStr) :=
  [("TAB".toList, "\t".toList),
   ("ENTER".toList, "\r".toList),
   ("ESC".toList, "\x1b".toList),
   ("BS".toList, "\x7f".toList),
   ("UP".toList, "\x1b[A".toList),
   ("DOWN".toList, "\x1b[B".toList),
   ("LEFT".toList, "\x1b[D".toList),
   ("RIGHT".toList, "\x1b[C".toList),
   ("PGUP".toList, "\x1b[5~".toList),
   ("PGDN".toList, "\x1b[6~".toList),
   ("NANO_EXIT".toList, "\x18".toList)]

/-- Association-list lookup (Python `dict.get` / `in`). -/
def lookupA {α β : Type} [DecidableEq α] : List (α × β) → α → Option β
  | [], _ => none
  | (k', v) :: t, k => if k' = k then some v else lookupA t k

/-- Association-list update (Python `d[k] = v`): overwrite in place if the
key is present, else append. -/
def setA {α β : Type} [DecidableEq α] : List (α × β) → α → β → List (α × β)
  | [], k, v => [(k, v)]
  | (k', v') :: t, k, v => if k' = k then (k, v) :: t else (k', v') :: setA t k v

/-- Association-list deletion (Python `d.pop(k, None)`). -/
def eraseA {α β : Type} [DecidableEq α] (l : List (α × β)) (k : α) : List (α × β) :=
  l.filter (fun kv => kv.1 != k)

/-- Number of entries stored under a key (a Python dict always has 0 or 1). -/
def countA {α β : Type} [DecidableEq α] (l : List (α × β)) (k : α) : Nat :=
  (l.filter (fun kv => kv.1 == k)).length

/-- `build_sequence_from_mods_and_key` (src/ssh-bot.py:653-690).  The
`try/except` around `chr(ord(ch0) & 0x1f)` cannot fire (the masked value is
always a valid code point), so no exception path is modelled. -/
def build_sequence_from_mods_and_key (mods : List PyStr) (key_token : PyStr) : PyStr :=
  match key_token with
  | [] => []
  | ch0 :: _ =>
    let ukey := key_token.map pyUpperChar
    match lookupA KEYS ukey with
    | some sq => if "ALT".toList ∈ mods then '\x1b' :: sq else sq
    | none =>
      let pre := if "ALT".toList ∈ mods then ['\x1b'] else []
      if "CTRL".toList ∈ mods then
        let c := pyLowerChar ch0
        if 97 ≤ c.toNat ∧ c.toNat ≤ 122 then pre ++ [Char.ofNat (c.toNat - 96)]
        else pre ++ [Char.ofNat (ch0.toNat &&& 31)]
      else if "SHIFT".toList ∈ mods then pre ++ [pyUpperChar ch0]
      else pre ++ [ch0]

/-- ASCII letter: exactly the characters on which the source's letter test
`"a" <= ch0.lower() <= "z"` succeeds. -/
def isAsciiLetter (c : Char) : Prop :=
  (97 ≤ c.toNat ∧ c.toNat ≤ 122) ∨ (65 ≤ c.toNat ∧ c.toNat ≤ 90)

/-- The identity key `(chat_id, user_id)` (src/ssh-bot.py:91). -/
abbrev SKey := Int × Int

/-- A stored server profile.  The source stores `{user, host, port,
created_at, last_used}` dicts; `created_at`/`last_used` are optional so that
records written by older layouts (plain `{user, host, port}`) are
representable.  `nameField` is never written by this code: it exists only so
that the id-keyed record format described by the spec (each profile carrying
its display name) is expressible for comparison. -/
structure SProfile where
  user : PyStr
  host : PyStr
  port : Nat
  created_at : Option Int
  last_used : Option Int
  nameField : Option PyStr
deriving DecidableEq

/-- One owner's record: the `servers` mapping and the `default` pointer. -/
structure OwnerRec where
  servers : List (PyStr × SProfile)
  dflt : PyStr
deriving DecidableEq

/-- The persisted document: `{"users": {owner-id: record}}`. -/
structure Db where
  users : List (Int × OwnerRec)
deriving DecidableEq

/-- The record `u = db["users"].get(str(user_id), {})` defaults to. -/
def emptyOwnerRec : OwnerRec := ⟨[], []⟩

/-- `get_user_servers` (src/ssh-bot.py:234-240): load the db and return the
owner's `servers` mapping (empty when absent). -/
def get_user_servers (uid : Int) (db : Db) : List (PyStr × SProfile) :=
  match lookupA db.users uid with
  | none => []
  | some u => u.servers

/-- `get_user_servers` with the persisted state made explicit: the source
performs no `save_server_db` call in this function, so the state component
is the input state unchanged. -/
def get_user_servers_op (uid : Int) (db : Db) : List (PyStr × SProfile) × Db :=
  (get_user_servers uid db, db)

/-- `set_user_servers` (src/ssh-bot.py:242-251): read-modify-write of the
owner's record; the `default` field is overwritten only when the `default`
argument is non-empty. -/
def set_user_servers (uid : Int) (servers : List (PyStr × SProfile)) (dflt : PyStr)
    (db : Db) : Db :=
  let u := (lookupA db.users uid).getD emptyOwnerRec
  let u1 : OwnerRec := ⟨servers, if dflt ≠ [] then dflt else u.dflt⟩
  ⟨setA db.users uid u1⟩

/-- `get_user_default_server` (src/ssh-bot.py:253-260). -/
def get_user_default_server (uid : Int) (db : Db) : PyStr :=
  match lookupA db.users uid with
  | none => []
  | some u => u.dflt

/-- `set_user_default_server` (src/ssh-bot.py:262-271): overwrites the
`default` field unconditionally (also with the empty string). -/
def set_user_default_server (uid : Int) (name : PyStr) (db : Db) : Db :=
  let u := (lookupA db.users uid).getD emptyOwnerRec
  let u1 : OwnerRec := ⟨u.servers, name⟩
  ⟨setA db.users uid u1⟩

/-- The profile dict written by `addserver_cmd` and the wizard
(src/ssh-bot.py:877, 991). -/
def mkProfile (user host : PyStr) (port : Nat) (now : Int) : SProfile :=
  ⟨user, host, port, some now, some now, none⟩

/-- `delserver_cmd` (src/ssh-bot.py:996-1013), state mutation only: pop the
named profile if present, write the mapping back, and clear the default
pointer when it pointed at the deleted name.  The `SV:DELETE` callback
branch (src/ssh-bot.py:1288-1306) performs the identical sequence. -/
def delserver_cmd (uid : Int) (name : PyStr) (db : Db) : Db :=
  let servers := get_user_servers uid db
  if (lookupA servers name).isSome then
    let servers1 := eraseA servers name
    let db1 := set_user_servers uid servers1 [] db
    if get_user_default_server uid db1 = name then set_user_default_server uid [] db1
    else db1
  else db

/-- `addserver_cmd` (src/ssh-bot.py:971-994), state mutation only: validate
the name, parse the target, then `servers[name] = {...}` and write back.
Validation or parse failure is reported and leaves the store untouched. -/
def addserver_cmd (uid : Int) (nameArg targetArg : PyStr) (now : Int) (db : Db) : Db :=
  let name := pyStrip nameArg
  if (validate_server_name name).isSome then db
  else
    match parse_target targetArg with
    | none => db
    | some (user, host, port) =>
      let servers := get_user_servers uid db
      let servers1 := setA servers name (mkProfile user host port now)
      set_user_servers uid servers1 [] db

/-- Modelled from the spec: the id-keyed record format the migration claim
says `get_user_servers` rewrites legacy records into — every stored profile
carries its `name` field, and the default pointer references a stored key. -/
def isIdKeyedRecord (rec : OwnerRec) : Prop :=
  (∀ kv ∈ rec.servers, kv.2.nameField.isSome) ∧
  (rec.dflt = [] ∨ (lookupA rec.servers rec.dflt).isSome)

/-- The render-relevant state of `SSHSession`: `last_render` and
`last_sent` (src/ssh-bot.py:365-366). -/
structure RState where
  last_render : PyStr
  last_sent : PyStr
deriving DecidableEq

/-- `SSHSession.render_and_update` (src/ssh-bot.py:459-483): join and
right-strip the screen, skip if it equals the last rendered text, else
record it, clamp, skip if the clamp equals the last published text, else
issue the edit.  `editOk` is the transport oracle: a failing edit is
swallowed and leaves `last_sent` unchanged.  Returns the new state and
whether an edit call was issued. -/
def render_and_update (editOk : Bool) (display : List PyStr) (st : RState) :
    RState × Bool :=
  let text := pyRStrip (joinLines display)
  if text = st.last_render then (st, false)
  else
    let st1 : RState := ⟨text, st.last_sent⟩
    let safe := clamp_tg text
    if safe = st1.last_sent then (st1, false)
    else if editOk then (⟨text, safe⟩, true)
    else (st1, true)

/-- `PendingConn` (src/ssh-bot.py:131-137), without the timestamp. -/
structure PendingConn where
  user : PyStr
  host : PyStr
  port : Nat
  server_name : PyStr
deriving DecidableEq

/-- `WizardState` (src/ssh-bot.py:139-144); of the `data` dict only
`data["name"]` is ever read back (by the `ADD_SERVER_TARGET` step), kept
here as `dataName`. -/
structure WizardSt where
  step : PyStr
  dataName : PyStr
  prompt_msg_id : Int
deriving DecidableEq

/-- The connection data of one `SSHSession` (fields set by `start`). -/
structure Sess where
  user : PyStr
  host : PyStr
  port : Nat
  password : PyStr
deriving DecidableEq

/-- A fresh `SSHSession(key, bot)` before `start` runs. -/
def emptySess : Sess := ⟨[], [], 0, []⟩

/-- Which user-visible message a `send_message` call is (identifies the call
site; the literal texts are irrelevant to the claims). -/
inductive MsgTag
  | targetFmtErr
  | pwdPrompt
  | noPendingErr
  | connectingPh
  | connFail
  | connOk
  | nameErr
  | addTargetPrompt
  | addFmtErr
  | savedOk
deriving DecidableEq

/-- Externally visible effects of the handlers. -/
inductive Eff
  | deleteMsg (id : Int)
  | sendMsg (tag : MsgTag)
  | connectAttempt (user host : PyStr) (port : Nat) (pwd : PyStr)
  | closeSess (user host : PyStr) (port : Nat) (pwd : PyStr)
deriving DecidableEq

/-- The global mutable maps (src/ssh-bot.py:149-151) plus the profile db. -/
structure BotState where
  sessions : List (SKey × Sess)
  pending : List (SKey × PendingConn)
  wizard : List (SKey × WizardSt)
  db : Db
deriving DecidableEq

/-- An inbound text message as the wizard sees it. -/
structure MsgIn where
  text : PyStr
  msg_id : Int
  is_private : Bool
  reply_to : Option Int
deriving DecidableEq

/-- `stop_session` (src/ssh-bot.py:595-604): pop the session for the key and
close it (the close is the emitted teardown effect). -/
def stop_session (key : SKey) (sessions : List (SKey × Sess)) :
    List (SKey × Sess) × List Eff :=
  match lookupA sessions key with
  | none => (sessions, [])
  | some s => (eraseA sessions key, [Eff.closeSess s.user s.host s.port s.password])

/-- `SSHSession.start` (src/ssh-bot.py:374-423): attempt the SSH connection
with the given target and credential (`cok` is the connect oracle); on
success the "Connecting..." placeholder message is sent and the loop starts;
on failure `(False, err)` is returned. -/
def sess_start (cok : Bool) (user host : PyStr) (port : Nat) (pwd : PyStr) :
    Sess × Bool × List Eff :=
  if cok then
    (⟨user, host, port, pwd⟩, true,
     [Eff.connectAttempt user host port pwd, Eff.sendMsg MsgTag.connectingPh])
  else
    (⟨user, host, port, pwd⟩, false, [Eff.connectAttempt user host port pwd])

/-- `wizard_process_text` (src/ssh-bot.py:761-891).  Inputs: the connect
oracle `cok`, the message id `promptId` any prompt sent during this call
gets, the clock `now`, the identity key, the message, and the global state.
Returns (consumed?, new state, effect trace).  Faithful points: the text is
stripped once up front; in a non-private chat the message is consumed only
when it replies to the dialogue's prompt; the `AWAIT_PASSWORD` branch
deletes the message before anything else, tears down any prior session,
registers the new session before `start`, clears wizard and pending after
the attempt, and pops the session again if the attempt failed. -/
def wizard_process_text (cok : Bool) (promptId : Int) (now : Int) (key : SKey)
    (m : MsgIn) (st : BotState) : Bool × BotState × List Eff :=
  match lookupA st.wizard key with
  | none => (false, st, [])
  | some w =>
    let text := pyStrip m.text
    if m.is_private = false ∧ m.reply_to ≠ some w.prompt_msg_id then (false, st, [])
    else if w.step = "AWAIT_TARGET".toList then
      match parse_target text with
      | none => (true, st, [Eff.sendMsg MsgTag.targetFmtErr])
      | some (user, host, port) =>
        let st1 : BotState := { st with pending := setA st.pending key ⟨user, host, port, []⟩ }
        let w1 : WizardSt := ⟨"AWAIT_PASSWORD".toList, w.dataName, promptId⟩
        let st2 : BotState := { st1 with wizard := setA st1.wizard key w1 }
        (true, st2, [Eff.deleteMsg m.msg_id, Eff.sendMsg MsgTag.pwdPrompt])
    else if w.step = "AWAIT_PASSWORD".toList then
      let pwd := text
      match lookupA st.pending key with
      | none =>
        let st1 : BotState :=
          { st with wizard := eraseA st.wizard key, pending := eraseA st.pending key }
        (true, st1, [Eff.deleteMsg m.msg_id, Eff.sendMsg MsgTag.noPendingErr])
      | some p =>
        let pr := stop_session key st.sessions
        let sessions1 := setA pr.1 key emptySess
        let srt := sess_start cok p.user p.host p.port pwd
        let sessions2 := setA sessions1 key srt.1
        let st1 : BotState :=
          { st with sessions := sessions2,
                    wizard := eraseA st.wizard key,
                    pending := eraseA st.pending key }
        if srt.2.1 then
          (true, st1,
           Eff.deleteMsg m.msg_id :: pr.2 ++ srt.2.2 ++ [Eff.sendMsg MsgTag.connOk])
        else
          (true, { st1 with sessions := eraseA st1.sessions key },
           Eff.deleteMsg m.msg_id :: pr.2 ++ srt.2.2 ++ [Eff.sendMsg MsgTag.connFail])
    else if w.step = "ADD_SERVER_NAME".toList then
      if (validate_server_name text).isSome then (true, st, [Eff.sendMsg MsgTag.nameErr])
      else
        let name := pyStrip text
        let w1 : WizardSt := ⟨"ADD_SERVER_TARGET".toList, name, promptId⟩
        (true, { st with wizard := setA st.wizard key w1 },
         [Eff.deleteMsg m.msg_id, Eff.sendMsg MsgTag.addTargetPrompt])
    else if w.step = "ADD_SERVER_TARGET".toList then
      let name := pyStrip w.dataName
      match parse_target text with
      | none => (true, st, [Eff.sendMsg MsgTag.addFmtErr])
      | some (user, host, port) =>
        let servers := get_user_servers key.2 st.db
        let servers1 := setA servers name (mkProfile user host port now)
        let db1 := set_user_servers key.2 servers1 [] st.db
        (true,
         { st with db := db1,
                   wizard := eraseA st.wizard key,
                   pending := eraseA st.pending key },
         [Eff.deleteMsg m.msg_id, Eff.sendMsg MsgTag.savedOk])
    else
      (false, { st with wizard := eraseA st.wizard key, pending := eraseA st.pending key }, [])

/-- Modelled from the spec's words (claim C8): a name is accepted iff, after
stripping surrounding whitespace, it is non-empty, has length at most 32,
and contains no control characters (code points below 32, or 127). -/
def claimedValidName (name : PyStr) : Prop :=
  pyStrip name ≠ [] ∧ (pyStrip name).length ≤ 32 ∧
  ∀ c ∈ pyStrip name, ¬ (c.toNat < 32 ∨ c.toNat = 127)

theorem lookupA_setA_self {α β : Type} [DecidableEq α] (l : List (α × β)) (k : α) (v : β) :
    lookupA (setA l k v) k = some v := by
  induction l with
  | nil => simp [setA, lookupA]
  | cons kv t ih =>
    obtain ⟨k', v'⟩ := kv
    by_cases h : k' = k
    · simp [setA, h, lookupA]
    · simp [setA, h, lookupA, ih]

theorem lookupA_setA_ne {α β : Type} [DecidableEq α] (l : List (α × β)) (k k' : α) (v : β)
    (h : k ≠ k') : lookupA (setA l k v) k' = lookupA l k' := by
  induction l with
  | nil => simp [setA, lookupA, h]
  | cons kv t ih =>
    obtain ⟨k'', v''⟩ := kv
    by_cases h2 : k'' = k
    · subst h2
      simp [setA, lookupA, h]
    · simp [setA, h2, lookupA, ih]

theorem lookupA_eraseA_self {α β : Type} [DecidableEq α] (l : List (α × β)) (k : α) :
    lookupA (eraseA l k) k = none := by
  induction l with
  | nil => simp [eraseA, lookupA]
  | cons kv t ih =>
    obtain ⟨k', v'⟩ := kv
    by_cases h : k' = k
    · simpa [eraseA, List.filter_cons, h] using ih
    · simpa [eraseA, List.filter_cons, h, lookupA] using ih

theorem lookupA_eraseA_ne {α β : Type} [DecidableEq α] (l : List (α × β)) (k0 k : α)
    (h : k ≠ k0) : lookupA (eraseA l k0) k = lookupA l k := by
  induction l with
  | nil => simp [eraseA, lookupA]
  | cons kv t ih =>
    obtain ⟨k', v'⟩ := kv
    by_cases h2 : k' = k0
    · subst h2
      have hne : ¬ k' = k := fun e => h (e ▸ rfl)
      simpa [eraseA, List.filter_cons, lookupA, hne] using ih
    · by_cases h3 : k' = k
      · subst h3
        simp [eraseA, List.filter_cons, h2, lookupA]
      · simpa [eraseA, List.filter_cons, h2, lookupA, h3] using ih

theorem countA_cons {α β : Type} [DecidableEq α] (k' : α) (v' : β) (t : List (α × β)) (k : α) :
    countA ((k', v') :: t) k = if k' = k then countA t k + 1 else countA t k := by
  by_cases h : k' = k
  · simp [countA, List.filter_cons, h]
  · simp [countA, List.filter_cons, h]

theorem countA_setA_self {α β : Type} [DecidableEq α] (l : List (α × β)) (k : α) (v : β)
    (h : countA l k ≤ 1) : countA (setA l k v) k = 1 := by
  induction l with
  | nil => simp [setA, countA, List.filter_cons]
  | cons kv t ih =>
    obtain ⟨k', v'⟩ := kv
    by_cases h2 : k' = k
    · subst h2
      rw [countA_cons, if_pos rfl] at h
      have ht : countA t k' = 0 := by omega
      have hs : setA ((k', v') :: t) k' v = (k', v) :: t := by simp [setA]
      rw [hs, countA_cons, if_pos rfl, ht]
    · rw [countA_cons, if_neg h2] at h
      have hs : setA ((k', v') :: t) k v = (k', v') :: setA t k v := by simp [setA, h2]
      rw [hs, countA_cons, if_neg h2]
      exact ih h

theorem countA_eq_zero_of_lookupA_none {α β : Type} [DecidableEq α] (l : List (α × β)) (k : α)
    (h : lookupA l k = none) : countA l k = 0 := by
  induction l with
  | nil => simp [countA]
  | cons kv t ih =>
    obtain ⟨k', v'⟩ := kv
    by_cases h2 : k' = k
    · rw [lookupA, if_pos h2] at h
      exact absurd h (by simp)
    · rw [lookupA, if_neg h2] at h
      rw [countA_cons, if_neg h2]
      exact ih h

theorem dropWhile_eq_self_of_forall {α : Type} (p : α → Bool) (l : List α)
    (h : ∀ c ∈ l, p c = false) : l.dropWhile p = l := by
  cases l with
  | nil => rfl
  | cons a t =>
    rw [List.dropWhile_cons, if_neg]
    simp [h a (by simp)]

theorem dropWhile_eq_nil_of_forall {α : Type} (p : α → Bool) (l : List α)
    (h : ∀ c ∈ l, p c = true) : l.dropWhile p = [] := by
  induction l with
  | nil => rfl
  | cons a t ih =>
    rw [List.dropWhile_cons, if_pos (by simp [h a (by simp)])]
    exact ih (fun c hc => h c (by simp [hc]))

theorem takeWhile_eq_self_of_forall {α : Type} (p : α → Bool) (l : List α)
    (h : ∀ c ∈ l, p c = true) : l.takeWhile p = l := by
  induction l with
  | nil => rfl
  | cons a t ih =>
    rw [List.takeWhile_cons, if_pos (by simp [h a (by simp)])]
    rw [ih (fun c hc => h c (by simp [hc]))]

theorem takeWhile_append_stop {α : Type} (p : α → Bool) (u t : List α) (a : α)
    (hu : ∀ c ∈ u, p c = true) (ha : p a = false) :
    (u ++ a :: t).takeWhile p = u := by
  induction u with
  | nil =>
    rw [List.nil_append, List.takeWhile_cons, if_neg]
    simp [ha]
  | cons b u' ih =>
    rw [List.cons_append, List.takeWhile_cons, if_pos (by simp [hu b (by simp)])]
    rw [ih (fun c hc => hu c (by simp [hc]))]

theorem dropWhile_append_stop {α : Type} (p : α → Bool) (u t : List α) (a : α)
    (hu : ∀ c ∈ u, p c = true) (ha : p a = false) :
    (u ++ a :: t).dropWhile p = a :: t := by
  induction u with
  | nil =>
    rw [List.nil_append, List.dropWhile_cons, if_neg]
    simp [ha]
  | cons b u' ih =>
    rw [List.cons_append, List.dropWhile_cons, if_pos (by simp [hu b (by simp)])]
    exact ih (fun c hc => hu c (by simp [hc]))

theorem pyStrip_eq_self (s : PyStr) (h : ∀ c ∈ s, isPySpaceChar c = false) :
    pyStrip s = s := by
  unfold pyStrip pyLStrip pyRStrip
  rw [dropWhile_eq_self_of_forall _ _ h]
  rw [dropWhile_eq_self_of_forall _ _ (fun c hc => h c (List.mem_reverse.mp hc))]
  exact List.reverse_reverse s

/-- C6: target parsing.  `"root@1.2.3.4:22"` parses to
`(root, 1.2.3.4, 22)`; any whitespace-free `user@host` with a non-empty
`@`-free user and a non-empty `:`-free host parses with the port defaulting
to 22; an input with no `@` such as `"nouserhost"` fails to parse. -/
theorem claim_C6_parse_target :
    parse_target "root@1.2.3.4:22".toList = some ("root".toList, "1.2.3.4".toList, 22)
    ∧ (∀ u h : PyStr, u ≠ [] → h ≠ [] → '@' ∉ u → ':' ∉ h →
        (∀ c ∈ u, isPySpaceChar c = false) → (∀ c ∈ h, isPySpaceChar c = false) →
        parse_target (u ++ '@' :: h) = some (u, h, 22))
    ∧ parse_target "nouserhost".toList = none := by
  refine ⟨by decide, ?_, by decide⟩
  intro u h hu hh hau hch hsu hsh
  have hstrip : pyStrip (u ++ '@' :: h) = u ++ '@' :: h := by
    refine pyStrip_eq_self _ ?_
    intro c hc
    rcases List.mem_append.mp hc with hcu | hcv
    · exact hsu c hcu
    · rcases List.mem_cons.mp hcv with rfl | hch2
      · decide
      · exact hsh c hch2
  have htake : (u ++ '@' :: h).takeWhile (fun c => c != '@') = u :=
    takeWhile_append_stop _ u h '@' (fun c hc => by simp [bne_iff_ne]; rintro rfl; exact hau hc)
      (by decide)
  have hdrop : (u ++ '@' :: h).dropWhile (fun c => c != '@') = '@' :: h :=
    dropWhile_append_stop _ u h '@' (fun c hc => by simp [bne_iff_ne]; rintro rfl; exact hau hc)
      (by decide)
  have htakeh : h.takeWhile (fun c => c != ':') = h :=
    takeWhile_eq_self_of_forall _ h (fun c hc => by simp [bne_iff_ne]; rintro rfl; exact hch hc)
  have hdroph : h.dropWhile (fun c => c != ':') = [] :=
    dropWhile_eq_nil_of_forall _ h (fun c hc => by simp [bne_iff_ne]; rintro rfl; exact hch hc)
  unfold parse_target
  simp only [hstrip, htake, hdrop, htakeh, hdroph]
  simp [List.isEmpty_iff, hu, hh]

/-- Witness for C6: the general `user@host` clause at `"bob@host"`. -/
theorem claim_C6_witness :
    parse_target "bob@host".toList = some ("bob".toList, "host".toList, 22) := by
  exact claim_C6_parse_target.2.1 "bob".toList "host".toList (by decide) (by decide)
    (by decide) (by decide) (by decide) (by decide)

/-- Counterexample for C8 as stated: `"a:b"` contains no control character,
is non-empty after stripping and well within the length bound, yet
`validate_server_name` rejects it (the code tests for `:`, `|`, LF and CR,
not for control characters). -/
theorem claim_C8_counterexample :
    claimedValidName "a:b".toList ∧ validate_server_name "a:b".toList ≠ none := by
  constructor
  · unfold claimedValidName
    refine ⟨by decide, by decide, ?_⟩
    decide
  · decide

/-- C8 as amended: a profile name is accepted by `validate_server_name` iff,
after stripping surrounding whitespace, it is non-empty, has length at most
32, and contains none of the characters `:`, `|`, LF, CR; each rejection
reports its specific reason. -/
theorem claim_C8_name_validation (name : PyStr) :
    (validate_server_name name = none ↔
      (pyStrip name ≠ [] ∧ (pyStrip name).length ≤ 32 ∧
        ∀ c ∈ pyStrip name, c ∉ [':', '|', '\n', '\r']))
    ∧ (pyStrip name = [] →
        validate_server_name name = some "Server name cannot be empty.".toList)
    ∧ (pyStrip name ≠ [] → 32 < (pyStrip name).length →
        validate_server_name name = some "Server name is too long (max 32).".toList)
    ∧ (pyStrip name ≠ [] → (pyStrip name).length ≤ 32 →
        (∃ c ∈ pyStrip name, c ∈ [':', '|', '\n', '\r']) →
        validate_server_name name = some "Server name contains invalid characters.".toList) := by
  unfold validate_server_name
  by_cases h1 : pyStrip name = []
  · rw [if_pos h1]
    refine ⟨?_, fun _ => rfl, fun h _ => absurd h1 h, fun h _ _ => absurd h1 h⟩
    constructor
    · intro h
      exact absurd h (by simp)
    · rintro ⟨h, -, -⟩
      exact absurd h1 h
  · rw [if_neg h1]
    by_cases h2 : 32 < (pyStrip name).length
    · rw [if_pos h2]
      refine ⟨?_, fun h => absurd h h1, fun _ _ => rfl,
        fun _ hle _ => absurd hle (not_le.mpr h2)⟩
      constructor
      · intro h
        exact absurd h (by simp)
      · rintro ⟨-, hle, -⟩
        exact absurd hle (not_le.mpr h2)
    · rw [if_neg h2]
      by_cases h3 : (pyStrip name).any (fun c => c ∈ [':', '|', '\n', '\r']) = true
      · rw [if_pos h3]
        refine ⟨?_, fun h => absurd h h1, fun _ hlen => absurd hlen h2, fun _ _ _ => rfl⟩
        constructor
        · intro h
          exact absurd h (by simp)
        · rintro ⟨-, -, hall⟩
          rw [List.any_eq_true] at h3
          obtain ⟨c, hc, hcin⟩ := h3
          exact absurd (of_decide_eq_true hcin) (hall c hc)
      · rw [if_neg h3]
        refine ⟨?_, fun h => absurd h h1, fun _ hlen => absurd hlen h2, ?_⟩
        · constructor
          · intro _
            refine ⟨h1, by omega, fun c hc hcin => ?_⟩
            rw [List.any_eq_true] at h3
            exact h3 ⟨c, hc, decide_eq_true hcin⟩
          · intro _
            rfl
        · rintro _ _ ⟨c, hc, hcin⟩
          rw [List.any_eq_true] at h3
          exact absurd ⟨c, hc, decide_eq_true hcin⟩ h3

/-- Witness for C8's amended theorem: `"web"` is accepted. -/
theorem claim_C8_witness : validate_server_name "web".toList = none := by
  exact (claim_C8_name_validation "web".toList).1.mpr ⟨by decide, by decide, by decide⟩

theorem toNat_ofNat_valid (n : Nat) (h : n < 55296) : (Char.ofNat n).toNat = n := by
  rw [Char.ofNat, dif_pos (Or.inl h)]
  rfl

theorem pyLowerChar_letter (c : Char) (h : isAsciiLetter c) :
    97 ≤ (pyLowerChar c).toNat ∧ (pyLowerChar c).toNat ≤ 122 := by
  unfold pyLowerChar
  rcases h with h | h
  · rw [if_neg (by omega)]
    exact h
  · rw [if_pos h]
    rw [toNat_ofNat_valid _ (by omega)]
    omega

theorem lookupA_eq_none_of_key_lengths {β : Type} (l : List (PyStr × β)) (k : PyStr)
    (h : ∀ kv ∈ l, kv.1.length ≠ k.length) : lookupA l k = none := by
  induction l with
  | nil => rfl
  | cons kv t ih =>
    obtain ⟨k', v'⟩ := kv
    rw [lookupA, if_neg]
    · exact ih (fun kv hkv => h kv (by simp [hkv]))
    · intro e
      exact h (k', v') (by simp) (by rw [e])

theorem lookupA_KEYS_single (x : Char) : lookupA KEYS [x] = none := by
  apply lookupA_eq_none_of_key_lengths
  intro kv hkv
  have hall : ∀ kv ∈ KEYS, kv.1.length ≠ 1 := by decide
  simpa using hall kv hkv

/-- C3: the key-sequence encoder is a pure function (equal inputs give equal
outputs); for every ASCII letter `c` with `CTRL` among the modifiers the
output is `chr(ord(lower(c)) - 96)`, prefixed with the escape byte exactly
when `ALT` is also present; and for a `CTRL`-modified single non-letter
character the output is that character masked with `0x1f`. -/
theorem claim_C3_key_codec :
    (∀ (m1 m2 : List PyStr) (k1 k2 : PyStr), m1 = m2 → k1 = k2 →
      build_sequence_from_mods_and_key m1 k1 = build_sequence_from_mods_and_key m2 k2)
    ∧ (∀ (mods : List PyStr) (c : Char), isAsciiLetter c → "CTRL".toList ∈ mods →
        build_sequence_from_mods_and_key mods [c] =
          (if "ALT".toList ∈ mods then ['\x1b'] else []) ++
            [Char.ofNat ((pyLowerChar c).toNat - 96)])
    ∧ (∀ c : Char, ¬ (97 ≤ (pyLowerChar c).toNat ∧ (pyLowerChar c).toNat ≤ 122) →
        build_sequence_from_mods_and_key ["CTRL".toList] [c] =
          [Char.ofNat (c.toNat &&& 31)]) := by
  refine ⟨?_, ?_, ?_⟩
  · intro m1 m2 k1 k2 h1 h2
    rw [h1, h2]
  · intro mods c hc hctrl
    have hlet := pyLowerChar_letter c hc
    simp only [build_sequence_from_mods_and_key, List.map_cons, List.map_nil,
      lookupA_KEYS_single, if_pos hctrl, if_pos hlet]
  · intro c hc
    simp only [build_sequence_from_mods_and_key, List.map_cons, List.map_nil,
      lookupA_KEYS_single]
    rw [if_pos (show "CTRL".toList ∈ ["CTRL".toList] by decide)]
    rw [if_neg hc]
    rw [if_neg (show ¬ "ALT".toList ∈ ["CTRL".toList] by decide)]
    simp

/-- Witness for C3: `CTRL+c` encodes to the single byte `0x03`. -/
theorem claim_C3_witness :
    build_sequence_from_mods_and_key ["CTRL".toList] ['c'] = ['\x03'] := by
  rw [claim_C3_key_codec.2.1 ["CTRL".toList] 'c' (Or.inl (by decide)) (by decide)]
  decide

/-- C10: when the key token is not a named key and has more than one
character, only its first character is encoded and the rest is silently
discarded; e.g. `"abc"` with no modifiers yields `"a"` and with `CTRL`
yields the single byte `0x01`. -/
theorem claim_C10_first_char_only :
    (∀ (mods : List PyStr) (c : Char) (rest : PyStr), rest ≠ [] →
      lookupA KEYS ((c :: rest).map pyUpperChar) = none →
      build_sequence_from_mods_and_key mods (c :: rest) =
        build_sequence_from_mods_and_key mods [c])
    ∧ build_sequence_from_mods_and_key [] "abc".toList = "a".toList
    ∧ build_sequence_from_mods_and_key ["CTRL".toList] "abc".toList = ['\x01'] := by
  refine ⟨?_, by decide, by decide⟩
  intro mods c rest hrest hload
  rw [List.map_cons] at hload
  simp only [build_sequence_from_mods_and_key, List.map_cons, List.map_nil,
    lookupA_KEYS_single, hload]

/-- Witness for C10: `"xy"` encodes like `"x"`. -/
theorem claim_C10_witness :
    build_sequence_from_mods_and_key ["ALT".toList] "xy".toList =
      build_sequence_from_mods_and_key ["ALT".toList] ['x'] := by
  exact claim_C10_first_char_only.1 ["ALT".toList] 'x' "y".toList (by decide) (by decide)

theorem joinLines_cons_length (l : PyStr) (ls : List PyStr) :
    (joinLines (l :: ls)).length =
      if ls = [] then l.length else l.length + 1 + (joinLines ls).length := by
  cases ls with
  | nil => simp [joinLines]
  | cons l2 ls2 =>
    show (joinLines (l :: l2 :: ls2)).length = _
    rw [if_neg (by simp)]
    simp [joinLines]
    omega

theorem joinLines_length_mono {s t : List PyStr} (h : s <:+ t) :
    (joinLines s).length ≤ (joinLines t).length := by
  induction t generalizing s with
  | nil =>
    rw [List.suffix_nil.mp h]
  | cons a t2 ih =>
    rcases List.suffix_cons_iff.mp h with rfl | h2
    · exact Nat.le_refl _
    · refine Nat.le_trans (ih h2) ?_
      rw [joinLines_cons_length]
      by_cases ht : t2 = []
      · subst ht
        simp [joinLines]
      · rw [if_neg ht]
        omega

theorem clampLoop_suffix (b : Nat) (rev out : List PyStr) :
    clampLoop b rev out <:+ rev.reverse ++ out := by
  induction rev generalizing out with
  | nil => simp [clampLoop]
  | cons line rest ih =>
    rw [clampLoop]
    by_cases h : b < (joinLines (line :: out)).length
    · rw [if_pos h]
      exact List.suffix_append _ _
    · rw [if_neg h]
      have h2 := ih (line :: out)
      rw [List.reverse_cons, List.append_assoc]
      simpa using h2

theorem clampLoop_fits (b : Nat) (rev out : List PyStr)
    (h : (joinLines out).length ≤ b) :
    (joinLines (clampLoop b rev out)).length ≤ b := by
  induction rev generalizing out with
  | nil => simpa [clampLoop] using h
  | cons line rest ih =>
    rw [clampLoop]
    by_cases hx : b < (joinLines (line :: out)).length
    · rw [if_pos hx]
      exact h
    · rw [if_neg hx]
      exact ih _ (by omega)

theorem clampLoop_cases (b : Nat) (rev out : List PyStr) :
    clampLoop b rev out = rev.reverse ++ out ∨
      ∃ l, (l :: clampLoop b rev out) <:+ rev.reverse ++ out ∧
        b < (joinLines (l :: clampLoop b rev out)).length := by
  induction rev generalizing out with
  | nil =>
    left
    simp [clampLoop]
  | cons line rest ih =>
    rw [clampLoop]
    by_cases hx : b < (joinLines (line :: out)).length
    · rw [if_pos hx]
      right
      refine ⟨line, ?_, hx⟩
      rw [List.reverse_cons, List.append_assoc]
      simp only [List.singleton_append]
      exact List.suffix_append rest.reverse (line :: out)
    · rw [if_neg hx]
      rcases ih (line :: out) with h | ⟨l, hsuf, hgt⟩
      · left
        rw [h, List.reverse_cons, List.append_assoc]
        simp
      · right
        refine ⟨l, ?_, hgt⟩
        rw [List.reverse_cons, List.append_assoc]
        simpa using hsuf

theorem clampTgWith_spec (b : Nat) (text : PyStr) :
    ∃ s : List PyStr, s <:+ splitLinesList text ∧
      clampTgWith b text = joinLines s ∧
      (joinLines s).length ≤ b ∧
      ∀ t : List PyStr, t <:+ splitLinesList text →
        (joinLines t).length ≤ b → t.length ≤ s.length := by
  refine ⟨clampLoop b (splitLinesList text).reverse [], ?_, rfl, ?_, ?_⟩
  · have h := clampLoop_suffix b (splitLinesList text).reverse []
    simpa using h
  · exact clampLoop_fits b _ [] (by simp [joinLines])
  · intro t ht hfit
    rcases clampLoop_cases b (splitLinesList text).reverse [] with h | ⟨l, hsuf, hgt⟩
    · rw [h]
      simp only [List.reverse_reverse, List.append_nil]
      exact List.IsSuffix.length_le ht
    · by_contra hlt
      push_neg at hlt
      have hle : (l :: clampLoop b (splitLinesList text).reverse []).length ≤ t.length := by
        simp only [List.length_cons]
        omega
      have hsuf2 : (l :: clampLoop b (splitLinesList text).reverse []) <:+ t := by
        refine List.suffix_of_suffix_length_le ?_ ht hle
        simpa using hsuf
      have hmono := joinLines_length_mono hsuf2
      omega

/-- C2 as amended: `clamp_tg` returns exactly the newline-join of the
maximal trailing contiguous slice of the text's lines whose join fits the
`MAX_TG_CHARS` budget (whole leading lines are dropped, the tail is
preserved); and a fitting text that equals the newline-join of its own
lines (in particular any fitting text with no trailing or non-`\n` line
break) is returned unchanged. -/
theorem claim_C2_clamp (text : PyStr) :
    (∃ s : List PyStr, s <:+ splitLinesList text ∧
      clamp_tg text = joinLines s ∧
      (joinLines s).length ≤ MAX_TG_CHARS ∧
      ∀ t : List PyStr, t <:+ splitLinesList text →
        (joinLines t).length ≤ MAX_TG_CHARS → t.length ≤ s.length)
    ∧ (text = joinLines (splitLinesList text) → text.length ≤ MAX_TG_CHARS →
        clamp_tg text = text) := by
  constructor
  · exact clampTgWith_spec MAX_TG_CHARS text
  · intro hj hlen
    obtain ⟨s, hsuf, heq, hfit, hmax⟩ := clampTgWith_spec MAX_TG_CHARS text
    have hwhole : (splitLinesList text).length ≤ s.length := by
      refine hmax _ (List.suffix_refl _) ?_
      rw [← hj]
      exact hlen
    have hs : s = splitLinesList text := List.IsSuffix.eq_of_length_le hsuf hwhole
    show clampTgWith MAX_TG_CHARS text = text
    rw [heq, hs, ← hj]

/-- Counterexample for C2 as stated: the two-character text `"a\n"` fits the
budget yet is not returned unchanged — `clamp_tg` rebuilds the text from its
`splitlines` image, which drops the trailing newline. -/
theorem claim_C2_counterexample :
    ("a\n".toList).length ≤ MAX_TG_CHARS ∧
      clamp_tg "a\n".toList ≠ "a\n".toList ∧
      clamp_tg "a\n".toList = "a".toList := by
  refine ⟨by decide, by decide, by decide⟩

/-- Witness for C2's amended theorem: a short newline-free text is returned
unchanged. -/
theorem claim_C2_witness : clamp_tg "abc".toList = "abc".toList := by
  exact (claim_C2_clamp "abc".toList).2 (by decide) (by decide)

/-- C7: `render_and_update` issues a transport edit iff the freshly
rendered (joined, right-stripped) screen text differs from `last_render`
and its clamped form differs from `last_sent`; in both no-op cases
`last_sent` is unchanged; a successful edit sets `last_sent` to exactly the
clamped text, and a failed edit leaves it unchanged. -/
theorem claim_C7_render (editOk : Bool) (display : List PyStr) (st : RState) :
    ((render_and_update editOk display st).2 = true ↔
      (pyRStrip (joinLines display) ≠ st.last_render ∧
        clamp_tg (pyRStrip (joinLines display)) ≠ st.last_sent))
    ∧ ((render_and_update editOk display st).2 = false →
        (render_and_update editOk display st).1.last_sent = st.last_sent)
    ∧ ((render_and_update editOk display st).2 = true → editOk = true →
        (render_and_update editOk display st).1.last_sent =
          clamp_tg (pyRStrip (joinLines display)))
    ∧ ((render_and_update editOk display st).2 = true → editOk = false →
        (render_and_update editOk display st).1.last_sent = st.last_sent) := by
  unfold render_and_update
  by_cases h1 : pyRStrip (joinLines display) = st.last_render
  · rw [if_pos h1]
    refine ⟨?_, fun _ => rfl, ?_, ?_⟩
    · simp [h1]
    · intro h
      exact absurd h (by simp)
    · intro h
      exact absurd h (by simp)
  · rw [if_neg h1]
    by_cases h2 : clamp_tg (pyRStrip (joinLines display)) = st.last_sent
    · rw [if_pos h2]
      refine ⟨?_, fun _ => rfl, ?_, ?_⟩
      · simp [h1, h2]
      · intro h
        exact absurd h (by simp)
      · intro h
        exact absurd h (by simp)
    · rw [if_neg h2]
      cases editOk with
      | true =>
        rw [if_pos rfl]
        refine ⟨?_, ?_, ?_, ?_⟩
        · simp [h1, h2]
        · intro h
          exact absurd h (by simp)
        · intro _ _
          rfl
        · intro _ h
          cases h
      | false =>
        rw [if_neg (by simp)]
        refine ⟨?_, ?_, ?_, ?_⟩
        · simp [h1, h2]
        · intro h
          cases h
        · intro _ h
          cases h
        · intro _ _
          rfl

/-- Witness for C7: a fresh session publishing one line records the clamped
text as last published. -/
theorem claim_C7_witness :
    (render_and_update true [['a']] ⟨[], []⟩).1.last_sent = clamp_tg (pyRStrip (joinLines [['a']])) := by
  exact (claim_C7_render true [['a']] ⟨[], []⟩).2.2.1 (by decide) rfl

/-- C1: for a text message consumed in step `AWAIT_PASSWORD` with a stored
`PendingConn`: the triggering message is deleted whatever the text is; any
existing session for the key is torn down (its close effect is emitted); a
connection attempt is made with the pending target and the supplied
(stripped) credential; afterwards the dialogue state and the pending
connection are both cleared whatever the attempt's outcome; and on a failed
attempt no session remains registered for that key. -/
theorem claim_C1_await_password (cok : Bool) (promptId now : Int) (key : SKey)
    (m : MsgIn) (st : BotState) (w : WizardSt) (p : PendingConn)
    (hw : lookupA st.wizard key = some w)
    (hstep : w.step = "AWAIT_PASSWORD".toList)
    (hcons : m.is_private = true ∨ m.reply_to = some w.prompt_msg_id)
    (hp : lookupA st.pending key = some p) :
    (wizard_process_text cok promptId now key m st).1 = true
    ∧ Eff.deleteMsg m.msg_id ∈ (wizard_process_text cok promptId now key m st).2.2
    ∧ (∀ s : Sess, lookupA st.sessions key = some s →
        Eff.closeSess s.user s.host s.port s.password ∈
          (wizard_process_text cok promptId now key m st).2.2)
    ∧ Eff.connectAttempt p.user p.host p.port (pyStrip m.text) ∈
        (wizard_process_text cok promptId now key m st).2.2
    ∧ lookupA (wizard_process_text cok promptId now key m st).2.1.wizard key = none
    ∧ lookupA (wizard_process_text cok promptId now key m st).2.1.pending key = none
    ∧ (cok = false →
        lookupA (wizard_process_text cok promptId now key m st).2.1.sessions key = none) := by
  have hc : ¬ (m.is_private = false ∧ m.reply_to ≠ some w.prompt_msg_id) := by
    rcases hcons with h | h
    · rintro ⟨h2, -⟩
      rw [h] at h2
      cases h2
    · rintro ⟨-, h2⟩
      exact h2 h
  cases cok <;> cases hs : lookupA st.sessions key <;>
    simp [wizard_process_text, hw, hstep, hp, hs, if_neg hc, stop_session, sess_start,
      lookupA_eraseA_self]

/-- Witness for C1: a concrete failed attempt consumes the message and
leaves no registered session. -/
theorem claim_C1_witness :
    (wizard_process_text false 99 0 (1, 2)
      ⟨"pw".toList, 10, true, none⟩
      ⟨[], [((1, 2), ⟨"u".toList, "h".toList, 22, []⟩)],
        [((1, 2), ⟨"AWAIT_PASSWORD".toList, [], 5⟩)], ⟨[]⟩⟩).1 = true
    ∧ lookupA (wizard_process_text false 99 0 (1, 2)
        ⟨"pw".toList, 10, true, none⟩
        ⟨[], [((1, 2), ⟨"u".toList, "h".toList, 22, []⟩)],
          [((1, 2), ⟨"AWAIT_PASSWORD".toList, [], 5⟩)], ⟨[]⟩⟩).2.1.sessions (1, 2) = none := by
  have h := claim_C1_await_password false 99 0 (1, 2) ⟨"pw".toList, 10, true, none⟩
    ⟨[], [((1, 2), ⟨"u".toList, "h".toList, 22, []⟩)],
      [((1, 2), ⟨"AWAIT_PASSWORD".toList, [], 5⟩)], ⟨[]⟩⟩
    ⟨"AWAIT_PASSWORD".toList, [], 5⟩ ⟨"u".toList, "h".toList, 22, []⟩
    (by decide) rfl (Or.inl rfl) (by decide)
  exact ⟨h.1, h.2.2.2.2.2.2 rfl⟩

theorem get_user_servers_set (uid : Int) (s : List (PyStr × SProfile)) (d : PyStr) (db : Db) :
    get_user_servers uid (set_user_servers uid s d db) = s := by
  simp [get_user_servers, set_user_servers, lookupA_setA_self]

theorem get_default_set_servers (uid : Int) (s : List (PyStr × SProfile)) (db : Db) :
    get_user_default_server uid (set_user_servers uid s [] db) =
      get_user_default_server uid db := by
  simp only [get_user_default_server, set_user_servers, lookupA_setA_self]
  cases h : lookupA db.users uid with
  | none => simp [h, emptyOwnerRec]
  | some u => simp [h]

theorem get_default_set_default (uid : Int) (name : PyStr) (db : Db) :
    get_user_default_server uid (set_user_default_server uid name db) = name := by
  simp [get_user_default_server, set_user_default_server, lookupA_setA_self]

theorem get_servers_set_default (uid : Int) (name : PyStr) (db : Db) :
    get_user_servers uid (set_user_default_server uid name db) =
      get_user_servers uid db := by
  simp only [get_user_servers, set_user_default_server, lookupA_setA_self]
  cases h : lookupA db.users uid with
  | none => simp [h, emptyOwnerRec]
  | some u => simp [h]

/-- C5: deleting a stored profile that is the owner's default clears the
default pointer within the same deletion operation, so the default lookup
afterwards returns empty; and deletion preserves the no-dangling invariant
(a non-empty default always references a stored profile). -/
theorem claim_C5_delete_default (db : Db) (uid : Int) (name : PyStr)
    (hmem : (lookupA (get_user_servers uid db) name).isSome = true)
    (hinv : get_user_default_server uid db = [] ∨
      (lookupA (get_user_servers uid db) (get_user_default_server uid db)).isSome = true) :
    (get_user_default_server uid db = name →
      get_user_default_server uid (delserver_cmd uid name db) = [])
    ∧ (get_user_default_server uid (delserver_cmd uid name db) = [] ∨
        (lookupA (get_user_servers uid (delserver_cmd uid name db))
          (get_user_default_server uid (delserver_cmd uid name db))).isSome = true) := by
  unfold delserver_cmd
  rw [if_pos hmem]
  have hd1 : get_user_default_server uid
      (set_user_servers uid (eraseA (get_user_servers uid db) name) [] db) =
      get_user_default_server uid db := get_default_set_servers uid _ db
  by_cases hdef : get_user_default_server uid
      (set_user_servers uid (eraseA (get_user_servers uid db) name) [] db) = name
  · rw [if_pos hdef]
    exact ⟨fun _ => get_default_set_default uid [] _,
      Or.inl (get_default_set_default uid [] _)⟩
  · rw [if_neg hdef]
    constructor
    · intro h
      rw [hd1] at hdef
      exact absurd h hdef
    · rw [hd1] at hdef ⊢
      rw [get_user_servers_set]
      rcases hinv with h | h
      · exact Or.inl h
      · right
        rw [lookupA_eraseA_ne _ _ _ hdef]
        exact h

/-- Witness for C5: deleting the default profile `"web"` leaves an empty
default pointer. -/
theorem claim_C5_witness :
    get_user_default_server 7 (delserver_cmd 7 "web".toList
      (⟨[(7, ⟨[("web".toList, mkProfile "u".toList "h".toList 22 5)], "web".toList⟩)]⟩ : Db)) = [] := by
  exact (claim_C5_delete_default
    (⟨[(7, ⟨[("web".toList, mkProfile "u".toList "h".toList 22 5)], "web".toList⟩)]⟩ : Db)
    7 "web".toList (by decide) (by right; decide)).1 (by decide)

theorem addserver_cmd_eq (uid : Int) (nameArg targetArg : PyStr) (u hs : PyStr)
    (pn : Nat) (t : Int) (db : Db)
    (hname : validate_server_name (pyStrip nameArg) = none)
    (htgt : parse_target targetArg = some (u, hs, pn)) :
    addserver_cmd uid nameArg targetArg t db =
      set_user_servers uid
        (setA (get_user_servers uid db) (pyStrip nameArg) (mkProfile u hs pn t)) [] db := by
  have hiss : ¬ ((validate_server_name (pyStrip nameArg)).isSome = true) := by
    rw [hname]
    simp
  unfold addserver_cmd
  rw [if_neg hiss, htgt]

/-- C9: the add-server upsert is idempotent under repeated identical input:
after two identical adds the owner stores exactly one profile under that
name (its key unchanged, i.e. the same identifier as after the first call),
holding the same connection fields with only the timestamps refreshed, and
every other key is untouched by the second call. -/
theorem claim_C9_upsert_idempotent (uid : Int) (nameArg targetArg : PyStr)
    (u hs : PyStr) (pn : Nat) (t1 t2 : Int) (db : Db)
    (hname : validate_server_name (pyStrip nameArg) = none)
    (htgt : parse_target targetArg = some (u, hs, pn))
    (hcount : countA (get_user_servers uid db) (pyStrip nameArg) ≤ 1) :
    lookupA (get_user_servers uid (addserver_cmd uid nameArg targetArg t1 db))
        (pyStrip nameArg) = some (mkProfile u hs pn t1)
    ∧ lookupA (get_user_servers uid (addserver_cmd uid nameArg targetArg t2
          (addserver_cmd uid nameArg targetArg t1 db))) (pyStrip nameArg)
        = some (mkProfile u hs pn t2)
    ∧ countA (get_user_servers uid (addserver_cmd uid nameArg targetArg t2
          (addserver_cmd uid nameArg targetArg t1 db))) (pyStrip nameArg) = 1
    ∧ ∀ k : PyStr, k ≠ pyStrip nameArg →
        lookupA (get_user_servers uid (addserver_cmd uid nameArg targetArg t2
            (addserver_cmd uid nameArg targetArg t1 db))) k
          = lookupA (get_user_servers uid (addserver_cmd uid nameArg targetArg t1 db)) k := by
  rw [addserver_cmd_eq uid nameArg targetArg u hs pn t2 _ hname htgt,
    addserver_cmd_eq uid nameArg targetArg u hs pn t1 db hname htgt]
  simp only [get_user_servers_set]
  refine ⟨lookupA_setA_self _ _ _, lookupA_setA_self _ _ _, ?_, ?_⟩
  · refine countA_setA_self _ _ _ ?_
    have h1 : countA (setA (get_user_servers uid db) (pyStrip nameArg)
        (mkProfile u hs pn t1)) (pyStrip nameArg) = 1 := countA_setA_self _ _ _ hcount
    omega
  · intro k hk
    exact lookupA_setA_ne _ _ _ _ (fun e => hk e.symm)

/-- Witness for C9: two identical adds of `"web"` on an empty store. -/
theorem claim_C9_witness :
    lookupA (get_user_servers 3 (addserver_cmd 3 "web".toList "u@h".toList 2
        (addserver_cmd 3 "web".toList "u@h".toList 1 (⟨[]⟩ : Db)))) "web".toList
      = some (mkProfile "u".toList "h".toList 22 2) := by
  exact (claim_C9_upsert_idempotent 3 "web".toList "u@h".toList "u".toList "h".toList 22 1 2
    (⟨[]⟩ : Db) (by decide) (by decide) (by decide)).2.1

/-- Counterexample for C4 as stated: for an owner whose record is in the
legacy name-keyed shape, one call to the listing operation returns the
mapping as stored and leaves the persisted record byte-for-byte unchanged —
it is not rewritten to the id-keyed format (no profile carries a name
field). -/
theorem claim_C4_counterexample :
    get_user_servers_op 1
        (⟨[(1, ⟨[("web".toList, ⟨"root".toList, "1.2.3.4".toList, 22, none, none, none⟩)],
          "web".toList⟩)]⟩ : Db)
      = ([("web".toList, ⟨"root".toList, "1.2.3.4".toList, 22, none, none, none⟩)],
         (⟨[(1, ⟨[("web".toList, ⟨"root".toList, "1.2.3.4".toList, 22, none, none, none⟩)],
           "web".toList⟩)]⟩ : Db))
    ∧ ¬ isIdKeyedRecord ⟨[("web".toList,
        ⟨"root".toList, "1.2.3.4".toList, 22, none, none, none⟩)], "web".toList⟩ := by
  refine ⟨by decide, ?_⟩
  unfold isIdKeyedRecord
  decide

/-- C4 as amended: `get_user_servers` performs no migration and no write.
For any stored owner record — in particular a legacy name-keyed one — the
listing operation returns the stored `servers` mapping as-is, leaves the
persisted state unchanged, and a second call is a no-op returning the same
result. -/
theorem claim_C4_no_migration (uid : Int) (db : Db) (rec : OwnerRec)
    (h : lookupA db.users uid = some rec) :
    (get_user_servers_op uid db).1 = rec.servers
    ∧ (get_user_servers_op uid db).2 = db
    ∧ get_user_servers_op uid (get_user_servers_op uid db).2 = get_user_servers_op uid db := by
  refine ⟨?_, rfl, rfl⟩
  unfold get_user_servers_op get_user_servers
  rw [h]

/-- Witness for C4's amended theorem at the legacy record of the claim. -/
theorem claim_C4_witness :
    (get_user_servers_op 1
        (⟨[(1, ⟨[("web".toList, ⟨"root".toList, "1.2.3.4".toList, 22, none, none, none⟩)],
          "web".toList⟩)]⟩ : Db)).1
      = [("web".toList, ⟨"root".toList, "1.2.3.4".toList, 22, none, none, none⟩)] := by
  exact (claim_C4_no_migration 1
    (⟨[(1, ⟨[("web".toList, ⟨"root".toList, "1.2.3.4".toList, 22, none, none, none⟩)],
      "web".toList⟩)]⟩ : Db)
    ⟨[("web".toList, ⟨"root".toList, "1.2.3.4".toList, 22, none, none, none⟩)], "web".toList⟩
    (by decide)).1
